import Mathlib

/-!
Shallow embedding of the nRF5x GPIO/GPIOTE driver
(`chips/nrf5x/src/gpio.rs`): the GPIOTE channel allocator
(`allocate_channel`, `find_channel`, `disable_interrupts`), the enable
path (`enable_interrupts`) and the interrupt demultiplexer
(`Port::handle_interrupt`), together with theorems settling the design
document's claims about them.

CONFIG registers are modelled as raw u32 values (`Nat`) with the
bit-field layout of `register_bitfields!`: MODE at bits 0-1, PSEL at
bits 8-13 (6 bits), POLARITY at bits 16-17.  The number of GPIOTE
channels (`NUM_GPIOTE`, 4 on nRF51 and 8 on nRF52) is kept as a
parameter `N` of every operation.
-/

/-- `GPIO_PER_PORT` from the source: 32 pins per GPIO port. -/
def GPIO_PER_PORT : Nat := 32

/-- The `Pin` enum: 48 variants `P0_00 .. P1_15` with discriminants 0..47. -/
abbrev Pin := Fin 48

/-- MODE field of a CONFIG register value: bits 0-1
(`Disabled = 0`, `Event = 1`, `Task = 3`). -/
def configMode (c : Nat) : Nat := c % 4

/-- PSEL field of a CONFIG register value: bits 8-13 (6 bits). -/
def configPsel (c : Nat) : Nat := c / 256 % 64

/-- POLARITY field of a CONFIG register value: bits 16-17. -/
def configPolarity (c : Nat) : Nat := c / 65536 % 4

/-- The value `register.write(MODE + PSEL.val(psel) + POLARITY)` stores:
each field value is masked to its width and shifted to its offset; all
other bits are written to zero. -/
def configWrite (mode psel polarity : Nat) : Nat :=
  mode % 4 + psel % 64 * 256 + polarity % 4 * 65536

/-- The GPIOTE register state the driver reads and writes: the
`config[n]` registers (raw u32), the `event_in[n]` pending flags, and
the per-channel interrupt-enable bits (set via `intenset`, cleared via
`intenclr`).  Only indices below `NUM_GPIOTE` are meaningful. -/
@[ext]
structure GpioteState where
  config : Nat → Nat
  event_in : Nat → Bool
  inten : Nat → Bool

/-- The per-pin driver object: `pin` is the offset within the port,
`port` the port index, `client` records whether the `OptionalCell`
holds a registered callback. -/
structure GPIOPin where
  pin : Nat
  port : Nat
  client : Bool

/-- `GPIOPin::new`: `pin = (p as usize) % GPIO_PER_PORT`,
`port = (p as usize) / GPIO_PER_PORT`, client empty. -/
def GPIOPin.new (p : Pin) : GPIOPin :=
  { pin := p.val % GPIO_PER_PORT, port := p.val / GPIO_PER_PORT, client := false }

/-- The encoded pin id `GPIO_PER_PORT * port + pin` recomputed in
`enable_interrupts` and `find_channel`. -/
def encoded_pin (g : GPIOPin) : Nat := GPIO_PER_PORT * g.port + g.pin

/-- First index `i` in `[k, k + fuel)` satisfying `p`, scanning upward:
the shape of the `for (i, ch) in regs.config.iter().enumerate()` loops. -/
def scanFrom (p : Nat → Bool) : Nat → Nat → Option Nat
  | _, 0 => none
  | k, fuel+1 => if p k then some k else scanFrom p (k+1) fuel

/-- `GPIOPin::allocate_channel`: return the first channel whose CONFIG
matches `MODE::Disabled`; `Ok(i)` is `some i`, `Err(())` is `none`.
The loop only reads; it takes no pin argument and performs no write. -/
def GPIOPin.allocate_channel (N : Nat) (s : GpioteState) : Option Nat :=
  scanFrom (fun i => decide (configMode (s.config i) = 0)) 0 N

/-- `GPIOPin::find_channel`: return the first channel whose CONFIG
matches `PSEL.val(encoded_pin)`, where
`encoded_pin = GPIO_PER_PORT * self.port + pin`; the field comparison
masks the value to the 6-bit PSEL width. -/
def GPIOPin.find_channel (N : Nat) (g : GPIOPin) (pin : Nat) (s : GpioteState) : Option Nat :=
  scanFrom (fun i => decide (configPsel (s.config i) = (GPIO_PER_PORT * g.port + pin) % 64)) 0 N

/-- `hil::gpio::InterruptEdge`. -/
inductive InterruptEdge where
  | RisingEdge
  | FallingEdge
  | EitherEdge
deriving DecidableEq

/-- The `match mode` in `enable_interrupts`: EitherEdge maps to
`POLARITY::Toggle` (3), RisingEdge to `LoToHi` (1), FallingEdge to
`HiToLo` (2). -/
def interruptEdgePolarity : InterruptEdge → Nat
  | .EitherEdge => 3
  | .RisingEdge => 1
  | .FallingEdge => 2

/-- `GPIOPin::enable_interrupts`: allocate a channel; on success write
`CONFIG[channel] = MODE::Event + PSEL.val(encoded_pin) + polarity` and
set the channel's bit in `intenset`.  On failure the code only emits the
debug log "No available GPIOTE interrupt channels" and writes nothing;
the second component records the allocated channel (`none` on the
failure branch). -/
def GPIOPin.enable_interrupts (N : Nat) (g : GPIOPin) (mode : InterruptEdge)
    (s : GpioteState) : GpioteState × Option Nat :=
  match GPIOPin.allocate_channel N s with
  | some channel =>
    ({ s with
        config := fun j =>
          if j = channel then configWrite 1 (encoded_pin g) (interruptEdgePolarity mode)
          else s.config j,
        inten := fun j => if j = channel then true else s.inten j },
     some channel)
  | none => (s, none)

/-- `GPIOPin::disable_interrupts`: find the channel whose PSEL matches
this pin; if found, write
`CONFIG[channel] = MODE::CLEAR + PSEL::CLEAR + POLARITY::CLEAR` (the
whole register becomes 0) and set the channel's bit in `intenclr`;
otherwise do nothing. -/
def GPIOPin.disable_interrupts (N : Nat) (g : GPIOPin) (s : GpioteState) : GpioteState :=
  match GPIOPin.find_channel N g g.pin s with
  | some channel =>
    { s with
        config := fun j => if j = channel then 0 else s.config j,
        inten := fun j => if j = channel then false else s.inten j }
  | none => s

/-- `GPIOPin::handle_interrupt`: `self.client.map(|client| client.fired())`
— the callback fires iff a client is registered; returns whether it
fired. -/
def GPIOPin.handle_interrupt (g : GPIOPin) : Bool := g.client

/-- `Port`: the table of pins, indexed by the decoded PSEL value. -/
structure Port where
  pins : Nat → GPIOPin

/-- Observable actions of `Port::handle_interrupt`, in program order:
`clear i` is the write of `EVENT::NotReady` to `event_in[i]`,
`fired i p` is the invocation of pin `p`'s callback while servicing
channel `i`. -/
inductive GpioteAction where
  | clear : Nat → GpioteAction
  | fired : Nat → Nat → GpioteAction
deriving DecidableEq

/-- Loop body of `Port::handle_interrupt` from index `k`, for `fuel`
more iterations: if `event_in[k]` is Ready, write NotReady, read
`pin = config[k].read(PSEL)` and call `pins[pin].handle_interrupt()`
(which fires the callback iff that pin has a client), then continue
with index `k+1`. -/
def Port.handleFrom (P : Port) : GpioteState → Nat → Nat → GpioteState × List GpioteAction
  | s, _, 0 => (s, [])
  | s, k, fuel+1 =>
    if s.event_in k then
      let s1 : GpioteState :=
        { s with event_in := fun j => if j = k then false else s.event_in j }
      let pin := configPsel (s.config k)
      let r := Port.handleFrom P s1 (k+1) fuel
      (r.1,
       (GpioteAction.clear k ::
          (if GPIOPin.handle_interrupt (P.pins pin) then [GpioteAction.fired k pin] else [])) ++ r.2)
    else Port.handleFrom P s (k+1) fuel

/-- `Port::handle_interrupt`: scan all `NUM_GPIOTE` channels from
index 0 upward. -/
def Port.handle_interrupt (N : Nat) (P : Port) (s : GpioteState) : GpioteState × List GpioteAction :=
  Port.handleFrom P s 0 N

/-- The trace `Port.handleFrom` produces, computed from the starting
state alone (the loop never modifies `config`, and each `event_in`
flag is sampled exactly once, at its own index). -/
def Port.traceFrom (P : Port) (s : GpioteState) : Nat → Nat → List GpioteAction
  | _, 0 => []
  | k, fuel+1 =>
    (if s.event_in k then
      GpioteAction.clear k ::
        (if (P.pins (configPsel (s.config k))).client then
          [GpioteAction.fired k (configPsel (s.config k))]
        else [])
    else []) ++ Port.traceFrom P s (k+1) fuel

/-- Channels serviced in a trace: the indices whose pending flag was
observed set and cleared. -/
def servicedChannels : List GpioteAction → List Nat
  | [] => []
  | GpioteAction.clear i :: tr => i :: servicedChannels tr
  | GpioteAction.fired _ _ :: tr => servicedChannels tr

/-- State-passing form of `allocate_channel`: the source loop only
performs `matches_all` reads on the CONFIG registers, so the register
state passes through unchanged. -/
def GPIOPin.allocate_channelST (N : Nat) (s : GpioteState) : Option Nat × GpioteState :=
  (GPIOPin.allocate_channel N s, s)

/-- A sequence of `enable_interrupts` calls, applied left to right. -/
def enableSeq (N : Nat) : List (GPIOPin × InterruptEdge) → GpioteState → GpioteState
  | [], s => s
  | q :: l, s => enableSeq N l (GPIOPin.enable_interrupts N q.1 q.2 s).1

/-- Number of channels below `n` whose MODE field is Disabled. -/
def freeCount (s : GpioteState) : Nat → Nat
  | 0 => 0
  | n+1 => freeCount s n + (if configMode (s.config n) = 0 then 1 else 0)

/-- The hardware reset state of the GPIOTE peripheral: all CONFIG
registers zero (MODE Disabled, PSEL 0), no pending events, all
interrupt-enable bits clear. -/
def resetState : GpioteState :=
  { config := fun _ => 0, event_in := fun _ => false, inten := fun _ => false }

/-- The design document's channel-table invariant: no two distinct
active (MODE not Disabled) channels carry the same PSEL owner value. -/
def ChannelInv (N : Nat) (s : GpioteState) : Prop :=
  ∀ i, i < N → ∀ j, j < N →
    (i ≠ j ∧ configMode (s.config i) ≠ 0 ∧ configMode (s.config j) ≠ 0) →
    configPsel (s.config i) ≠ configPsel (s.config j)

instance channelInvDecidable (N : Nat) (s : GpioteState) : Decidable (ChannelInv N s) := by
  unfold ChannelInv
  infer_instance

/-! ### Concrete states used to exercise the theorems -/

/-- A port whose pin table registers a client only on pin 5. -/
def exPort : Port :=
  { pins := fun p => { pin := p % 32, port := p / 32, client := decide (p = 5) } }

/-- A port whose pin table registers no client at all. -/
def noClientPort : Port :=
  { pins := fun p => { pin := p % 32, port := p / 32, client := false } }

/-- Channel 1 owned by pin 5 (MODE Event, PSEL 5, POLARITY LoToHi) with its
pending flag set; all other channels idle. -/
def exState : GpioteState :=
  { config := fun j => if j = 1 then configWrite 1 5 1 else 0,
    event_in := fun j => decide (j = 1),
    inten := fun _ => false }

/-- A GPIOTE state whose channels are all occupied (MODE Event). -/
def fullState : GpioteState :=
  { config := fun j => configWrite 1 j 0,
    event_in := fun _ => false,
    inten := fun _ => false }

/-- A port whose pin table registers a client on every pin. -/
def c3Port : Port :=
  { pins := fun p => { pin := p % 32, port := p / 32, client := true } }

/-- Channel 0 pending but unowned (CONFIG zero, MODE Disabled). -/
def c3State : GpioteState :=
  { config := fun _ => 0,
    event_in := fun j => decide (j = 0),
    inten := fun _ => false }

/-- The state after calling `enable_interrupts` twice for pin `P0_01`
(encoded id 1) from the reset state, with no intervening disable. -/
def c4DoubleEnable : GpioteState :=
  (GPIOPin.enable_interrupts 4 (GPIOPin.new 1) InterruptEdge.RisingEdge
    (GPIOPin.enable_interrupts 4 (GPIOPin.new 1) InterruptEdge.RisingEdge resetState).1).1

/-- Channel 0 owned by pin `P0_00` (encoded id 0): MODE Event, PSEL 0. -/
def c5State : GpioteState :=
  { config := fun j => if j = 0 then configWrite 1 0 1 else 0,
    event_in := fun _ => false,
    inten := fun _ => false }

/-- Channel 2 owned by pin `P1_01` (encoded id 33): MODE Event, PSEL 33. -/
def c5wState : GpioteState :=
  { config := fun j => if j = 2 then configWrite 1 33 2 else 0,
    event_in := fun _ => false,
    inten := fun _ => false }

/-! ### Field-extraction lemmas for CONFIG register values -/

theorem configMode_configWrite (m p q : Nat) : configMode (configWrite m p q) = m % 4 := by
  unfold configMode configWrite
  omega

theorem configPsel_configWrite (m p q : Nat) : configPsel (configWrite m p q) = p % 64 := by
  unfold configPsel configWrite
  omega

theorem configPolarity_configWrite (m p q : Nat) :
    configPolarity (configWrite m p q) = q % 4 := by
  unfold configPolarity configWrite
  omega

/-! ### Characterization of the upward channel scans -/

theorem scanFrom_eq_some (p : Nat → Bool) :
    ∀ fuel k i, scanFrom p k fuel = some i ↔
      (k ≤ i ∧ i < k + fuel ∧ p i = true ∧ ∀ j, k ≤ j → j < i → p j = false) := by
  intro fuel
  induction fuel with
  | zero =>
    intro k i
    simp only [scanFrom]
    constructor
    · intro h
      exact absurd h (by simp)
    · intro h
      omega
  | succ n ih =>
    intro k i
    simp only [scanFrom]
    cases hval : p k with
    | true =>
      rw [if_pos rfl]
      constructor
      · intro h
        have hki : k = i := Option.some.inj h
        rw [← hki]
        exact ⟨Nat.le_refl k, by omega, hval, fun j h1 h2 => by omega⟩
      · rintro ⟨h1, _, h3, h4⟩
        have hik : i = k := by
          by_contra hne
          have hk : k < i := by omega
          have hfalse := h4 k (Nat.le_refl k) hk
          rw [hval] at hfalse
          exact absurd hfalse (by simp)
        rw [hik]
    | false =>
      rw [if_neg (by simp), ih]
      constructor
      · rintro ⟨h1, h2, h3, h4⟩
        refine ⟨by omega, by omega, h3, fun j hj1 hj2 => ?_⟩
        rcases Nat.eq_or_lt_of_le hj1 with heq | hlt
        · rw [← heq]
          exact hval
        · exact h4 j hlt hj2
      · rintro ⟨h1, h2, h3, h4⟩
        have hik : i ≠ k := by
          intro he
          rw [he, hval] at h3
          exact absurd h3 (by simp)
        exact ⟨by omega, by omega, h3, fun j hj1 hj2 => h4 j (by omega) hj2⟩

theorem scanFrom_eq_none (p : Nat → Bool) :
    ∀ fuel k, scanFrom p k fuel = none ↔ ∀ j, k ≤ j → j < k + fuel → p j = false := by
  intro fuel
  induction fuel with
  | zero =>
    intro k
    simp only [scanFrom]
    constructor
    · intro _ j hj1 hj2
      omega
    · intro _
      trivial
  | succ n ih =>
    intro k
    simp only [scanFrom]
    cases hval : p k with
    | true =>
      rw [if_pos rfl]
      constructor
      · intro h
        exact absurd h (by simp)
      · intro h
        have hfalse := h k (Nat.le_refl k) (by omega)
        rw [hval] at hfalse
        exact absurd hfalse (by simp)
    | false =>
      rw [if_neg (by simp), ih]
      constructor
      · intro h j hj1 hj2
        rcases Nat.eq_or_lt_of_le hj1 with heq | hlt
        · rw [← heq]
          exact hval
        · exact h j hlt (by omega)
      · intro h j hj1 hj2
        exact h j (by omega) (by omega)

/-! ### The demultiplexer: state and trace characterization -/

theorem traceFrom_congr (P : Port) :
    ∀ fuel s t k, s.config = t.config → (∀ j, k ≤ j → s.event_in j = t.event_in j) →
      Port.traceFrom P s k fuel = Port.traceFrom P t k fuel := by
  intro fuel
  induction fuel with
  | zero =>
    intro s t k _ _
    rfl
  | succ n ih =>
    intro s t k h1 h2
    simp only [Port.traceFrom]
    rw [h1, h2 k (Nat.le_refl k), ih s t (k+1) h1 (fun j hj => h2 j (by omega))]

theorem handleFrom_eq (P : Port) :
    ∀ fuel s k,
      Port.handleFrom P s k fuel =
        ({ s with event_in := fun j => if k ≤ j ∧ j < k + fuel then false else s.event_in j },
         Port.traceFrom P s k fuel) := by
  intro fuel
  induction fuel with
  | zero =>
    intro s k
    simp only [Port.handleFrom, Port.traceFrom]
    congr 1
    ext j
    · rfl
    · dsimp only
      split_ifs
      · omega
      · rfl
    · rfl
  | succ n ih =>
    intro s k
    simp only [Port.handleFrom]
    cases hval : s.event_in k with
    | true =>
      rw [if_pos rfl, ih]
      congr 1
      · ext j
        · rfl
        · dsimp only
          split_ifs <;> first | rfl | omega
        · rfl
      · dsimp only
        simp only [Port.traceFrom, hval, GPIOPin.handle_interrupt]
        rw [if_pos trivial,
          traceFrom_congr P n
            { s with event_in := fun j => if j = k then false else s.event_in j } s (k+1) rfl
            (fun j hj => by dsimp only; rw [if_neg (by omega : ¬ j = k)])]
    | false =>
      rw [if_neg (by simp), ih]
      congr 1
      · ext j
        · rfl
        · dsimp only
          split_ifs <;>
            first
            | rfl
            | omega
            | (rw [show j = k from by omega]; exact hval)
        · rfl
      · simp only [Port.traceFrom, hval]
        rw [if_neg (by simp), List.nil_append]

/-! ### Trace properties of the demultiplexer -/

theorem servicedChannels_append (a b : List GpioteAction) :
    servicedChannels (a ++ b) = servicedChannels a ++ servicedChannels b := by
  induction a with
  | nil => rfl
  | cons x tr ih =>
    cases x with
    | clear i => simp only [List.cons_append, servicedChannels, List.append_eq, ih]
    | fired i p => simp only [List.cons_append, servicedChannels, List.append_eq, ih]

theorem servicedChannels_fired_if (c : Prop) [Decidable c] (a b : Nat) :
    servicedChannels (if c then [GpioteAction.fired a b] else []) = [] := by
  split_ifs <;> rfl

theorem serviced_mem (P : Port) (s : GpioteState) :
    ∀ fuel k i, i ∈ servicedChannels (Port.traceFrom P s k fuel) ↔
      (k ≤ i ∧ i < k + fuel ∧ s.event_in i = true) := by
  intro fuel
  induction fuel with
  | zero =>
    intro k i
    constructor
    · intro h
      exact absurd h (by simp [Port.traceFrom, servicedChannels])
    · rintro ⟨h1, h2, _⟩
      omega
  | succ n ih =>
    intro k i
    simp only [Port.traceFrom]
    by_cases hval : s.event_in k = true
    · rw [if_pos hval, List.cons_append, servicedChannels, servicedChannels_append,
        servicedChannels_fired_if, List.nil_append, List.mem_cons, ih (k+1) i]
      constructor
      · rintro (heq | ⟨h1, h2, h3⟩)
        · subst heq
          exact ⟨Nat.le_refl i, by omega, hval⟩
        · exact ⟨by omega, by omega, h3⟩
      · rintro ⟨h1, h2, h3⟩
        by_cases hik : i = k
        · exact Or.inl hik
        · exact Or.inr ⟨by omega, by omega, h3⟩
    · rw [if_neg hval, List.nil_append, ih (k+1) i]
      constructor
      · rintro ⟨h1, h2, h3⟩
        exact ⟨by omega, by omega, h3⟩
      · rintro ⟨h1, h2, h3⟩
        have hik : i ≠ k := by
          intro he
          rw [he] at h3
          exact hval h3
        exact ⟨by omega, by omega, h3⟩

theorem serviced_pairwise (P : Port) (s : GpioteState) :
    ∀ fuel k, List.Pairwise (fun a b => a < b) (servicedChannels (Port.traceFrom P s k fuel)) := by
  intro fuel
  induction fuel with
  | zero =>
    intro k
    exact List.Pairwise.nil
  | succ n ih =>
    intro k
    simp only [Port.traceFrom]
    by_cases hval : s.event_in k = true
    · rw [if_pos hval, List.cons_append, servicedChannels, servicedChannels_append,
        servicedChannels_fired_if, List.nil_append]
      refine List.Pairwise.cons ?_ (ih (k+1))
      intro b hb
      have := ((serviced_mem P s n (k+1) b).mp hb).1
      omega
    · rw [if_neg hval, List.nil_append]
      exact ih (k+1)

theorem fired_mem (P : Port) (s : GpioteState) :
    ∀ fuel k i p, GpioteAction.fired i p ∈ Port.traceFrom P s k fuel ↔
      (k ≤ i ∧ i < k + fuel ∧ s.event_in i = true ∧ p = configPsel (s.config i) ∧
        (P.pins (configPsel (s.config i))).client = true) := by
  intro fuel
  induction fuel with
  | zero =>
    intro k i p
    constructor
    · intro h
      exact absurd h (by simp [Port.traceFrom])
    · rintro ⟨h1, h2, _⟩
      omega
  | succ n ih =>
    intro k i p
    simp only [Port.traceFrom]
    by_cases hval : s.event_in k = true
    · rw [if_pos hval, List.cons_append, List.mem_cons]
      by_cases hcl : (P.pins (configPsel (s.config k))).client = true
      · rw [if_pos hcl, List.singleton_append, List.mem_cons, ih (k+1) i p]
        constructor
        · rintro (h | h | ⟨h1, h2, h3, h4, h5⟩)
          · exact GpioteAction.noConfusion h
          · injection h with hk hp
            subst hk
            subst hp
            exact ⟨Nat.le_refl i, by omega, hval, rfl, hcl⟩
          · exact ⟨by omega, by omega, h3, h4, h5⟩
        · rintro ⟨h1, h2, h3, h4, h5⟩
          by_cases hik : i = k
          · subst hik
            rw [h4]
            exact Or.inr (Or.inl rfl)
          · exact Or.inr (Or.inr ⟨by omega, by omega, h3, h4, h5⟩)
      · rw [if_neg hcl, List.nil_append, ih (k+1) i p]
        constructor
        · rintro (h | ⟨h1, h2, h3, h4, h5⟩)
          · exact GpioteAction.noConfusion h
          · exact ⟨by omega, by omega, h3, h4, h5⟩
        · rintro ⟨h1, h2, h3, h4, h5⟩
          have hik : i ≠ k := by
            intro he
            rw [he] at h5
            exact hcl h5
          exact Or.inr ⟨by omega, by omega, h3, h4, h5⟩
    · rw [if_neg hval, List.nil_append, ih (k+1) i p]
      constructor
      · rintro ⟨h1, h2, h3, h4, h5⟩
        exact ⟨by omega, by omega, h3, h4, h5⟩
      · rintro ⟨h1, h2, h3, h4, h5⟩
        have hik : i ≠ k := by
          intro he
          rw [he] at h3
          exact hval h3
        exact ⟨by omega, by omega, h3, h4, h5⟩

theorem clear_before_fired (P : Port) (s : GpioteState) :
    ∀ fuel k t1 i p t2,
      Port.traceFrom P s k fuel = t1 ++ GpioteAction.fired i p :: t2 →
      GpioteAction.clear i ∈ t1 := by
  intro fuel
  induction fuel with
  | zero =>
    intro k t1 i p t2 h
    exact absurd h (by simp [Port.traceFrom])
  | succ n ih =>
    intro k t1 i p t2 h
    simp only [Port.traceFrom] at h
    by_cases hval : s.event_in k = true
    · rw [if_pos hval] at h
      by_cases hcl : (P.pins (configPsel (s.config k))).client = true
      · rw [if_pos hcl, List.cons_append, List.singleton_append] at h
        cases t1 with
        | nil =>
          rw [List.nil_append] at h
          injection h with h1 h2
          exact GpioteAction.noConfusion h1
        | cons a t1 =>
          rw [List.cons_append] at h
          injection h with h1 h2
          cases t1 with
          | nil =>
            rw [List.nil_append] at h2
            injection h2 with h3 h4
            injection h3 with hk hp
            subst hk
            rw [← h1]
            exact List.mem_singleton_self _
          | cons b t1 =>
            rw [List.cons_append] at h2
            injection h2 with h3 h4
            have := ih (k+1) t1 i p t2 h4
            exact List.mem_cons_of_mem a (List.mem_cons_of_mem b this)
      · rw [if_neg hcl, List.cons_append, List.nil_append] at h
        cases t1 with
        | nil =>
          rw [List.nil_append] at h
          injection h with h1 h2
          exact GpioteAction.noConfusion h1
        | cons a t1 =>
          rw [List.cons_append] at h
          injection h with h1 h2
          have := ih (k+1) t1 i p t2 h2
          exact List.mem_cons_of_mem a this
    · rw [if_neg hval, List.nil_append] at h
      exact ih (k+1) t1 i p t2 h

/-! ### Allocator-side lemmas -/

theorem enable_interrupts_of_none (N : Nat) (g : GPIOPin) (e : InterruptEdge) (s : GpioteState)
    (h : GPIOPin.allocate_channel N s = none) :
    GPIOPin.enable_interrupts N g e s = (s, none) := by
  unfold GPIOPin.enable_interrupts
  rw [h]

theorem enable_interrupts_of_some (N : Nat) (g : GPIOPin) (e : InterruptEdge) (s : GpioteState)
    (ch : Nat) (h : GPIOPin.allocate_channel N s = some ch) :
    GPIOPin.enable_interrupts N g e s =
      ({ s with
          config := fun j =>
            if j = ch then configWrite 1 (encoded_pin g) (interruptEdgePolarity e)
            else s.config j,
          inten := fun j => if j = ch then true else s.inten j },
       some ch) := by
  unfold GPIOPin.enable_interrupts
  rw [h]

theorem disable_interrupts_of_none (N : Nat) (g : GPIOPin) (s : GpioteState)
    (h : GPIOPin.find_channel N g g.pin s = none) :
    GPIOPin.disable_interrupts N g s = s := by
  unfold GPIOPin.disable_interrupts
  rw [h]

theorem disable_interrupts_of_some (N : Nat) (g : GPIOPin) (s : GpioteState)
    (ch : Nat) (h : GPIOPin.find_channel N g g.pin s = some ch) :
    GPIOPin.disable_interrupts N g s =
      { s with
          config := fun j => if j = ch then 0 else s.config j,
          inten := fun j => if j = ch then false else s.inten j } := by
  unfold GPIOPin.disable_interrupts
  rw [h]

theorem allocate_channel_none_iff (N : Nat) (s : GpioteState) :
    GPIOPin.allocate_channel N s = none ↔ ∀ i, i < N → configMode (s.config i) ≠ 0 := by
  unfold GPIOPin.allocate_channel
  rw [scanFrom_eq_none]
  constructor
  · intro h i hi
    have := h i (Nat.zero_le i) (by omega)
    intro hmode
    rw [decide_eq_true hmode] at this
    exact absurd this (by simp)
  · intro h j _ hj
    have := h j (by omega)
    exact decide_eq_false this

theorem allocate_channel_some_iff (N : Nat) (s : GpioteState) (i : Nat) :
    GPIOPin.allocate_channel N s = some i ↔
      (i < N ∧ configMode (s.config i) = 0 ∧ ∀ j, j < i → configMode (s.config j) ≠ 0) := by
  unfold GPIOPin.allocate_channel
  rw [scanFrom_eq_some]
  constructor
  · rintro ⟨_, h2, h3, h4⟩
    refine ⟨by omega, of_decide_eq_true h3, fun j hj => ?_⟩
    have := h4 j (Nat.zero_le j) hj
    intro hmode
    rw [decide_eq_true hmode] at this
    exact absurd this (by simp)
  · rintro ⟨h1, h2, h3⟩
    exact ⟨Nat.zero_le i, by omega, decide_eq_true h2,
      fun j _ hj => decide_eq_false (h3 j hj)⟩

theorem find_channel_none_iff (N : Nat) (g : GPIOPin) (pin : Nat) (s : GpioteState) :
    GPIOPin.find_channel N g pin s = none ↔
      ∀ i, i < N → configPsel (s.config i) ≠ (GPIO_PER_PORT * g.port + pin) % 64 := by
  unfold GPIOPin.find_channel
  rw [scanFrom_eq_none]
  constructor
  · intro h i hi
    have := h i (Nat.zero_le i) (by omega)
    intro hmode
    rw [decide_eq_true hmode] at this
    exact absurd this (by simp)
  · intro h j _ hj
    exact decide_eq_false (h j (by omega))

theorem find_channel_some_iff (N : Nat) (g : GPIOPin) (pin : Nat) (s : GpioteState) (i : Nat) :
    GPIOPin.find_channel N g pin s = some i ↔
      (i < N ∧ configPsel (s.config i) = (GPIO_PER_PORT * g.port + pin) % 64 ∧
        ∀ j, j < i → configPsel (s.config j) ≠ (GPIO_PER_PORT * g.port + pin) % 64) := by
  unfold GPIOPin.find_channel
  rw [scanFrom_eq_some]
  constructor
  · rintro ⟨_, h2, h3, h4⟩
    refine ⟨by omega, of_decide_eq_true h3, fun j hj => ?_⟩
    have := h4 j (Nat.zero_le j) hj
    intro hmode
    rw [decide_eq_true hmode] at this
    exact absurd this (by simp)
  · rintro ⟨h1, h2, h3⟩
    exact ⟨Nat.zero_le i, by omega, decide_eq_true h2,
      fun j _ hj => decide_eq_false (h3 j hj)⟩

/-! ### Counting free channels -/

theorem freeCount_le (s : GpioteState) : ∀ n, freeCount s n ≤ n := by
  intro n
  induction n with
  | zero => exact Nat.le_refl 0
  | succ m ih =>
    simp only [freeCount]
    split_ifs <;> omega

theorem freeCount_eq_zero_iff (s : GpioteState) :
    ∀ n, freeCount s n = 0 ↔ ∀ j, j < n → configMode (s.config j) ≠ 0 := by
  intro n
  induction n with
  | zero =>
    simp only [freeCount]
    constructor
    · intro _ j hj
      omega
    · intro _
      trivial
  | succ m ih =>
    simp only [freeCount]
    constructor
    · intro h j hj
      have h1 : freeCount s m = 0 := by omega
      rcases Nat.lt_succ_iff_lt_or_eq.mp hj with hlt | heq
      · exact (ih.mp h1) j hlt
      · subst heq
        intro hmode
        rw [if_pos hmode] at h
        omega
    · intro h
      have h1 : freeCount s m = 0 := ih.mpr (fun j hj => h j (by omega))
      rw [h1, if_neg (h m (by omega))]

theorem freeCount_congr (s t : GpioteState) :
    ∀ n, (∀ j, j < n → configMode (s.config j) = configMode (t.config j)) →
      freeCount s n = freeCount t n := by
  intro n
  induction n with
  | zero =>
    intro _
    rfl
  | succ m ih =>
    intro h
    simp only [freeCount]
    rw [ih (fun j hj => h j (by omega)), h m (by omega)]

theorem freeCount_update (s : GpioteState) (ch v : Nat)
    (hch0 : configMode (s.config ch) = 0) (hv : configMode v ≠ 0) :
    ∀ n, ch < n →
      freeCount { s with config := fun j => if j = ch then v else s.config j } n + 1 =
        freeCount s n := by
  intro n
  induction n with
  | zero =>
    intro h
    omega
  | succ m ih =>
    intro h
    simp only [freeCount]
    dsimp only
    by_cases hm : m = ch
    · subst hm
      rw [if_pos rfl]
      have hcongr : freeCount { s with config := fun j => if j = m then v else s.config j } m =
          freeCount s m := by
        apply freeCount_congr
        intro j hj
        dsimp only
        rw [if_neg (by omega)]
      rw [hcongr, if_neg hv, if_pos hch0]
    · have hch : ch < m := by omega
      rw [if_neg hm]
      have hstep := ih hch
      split_ifs <;> omega

theorem enable_freeCount (N : Nat) (g : GPIOPin) (e : InterruptEdge) (s : GpioteState) :
    freeCount (GPIOPin.enable_interrupts N g e s).1 N ≤ freeCount s N - 1 := by
  cases halloc : GPIOPin.allocate_channel N s with
  | none =>
    rw [enable_interrupts_of_none N g e s halloc]
    dsimp only
    have h0 : freeCount s N = 0 :=
      (freeCount_eq_zero_iff s N).mpr ((allocate_channel_none_iff N s).mp halloc)
    omega
  | some ch =>
    rw [enable_interrupts_of_some N g e s ch halloc]
    dsimp only
    have hspec := (allocate_channel_some_iff N s ch).mp halloc
    have hv : configMode (configWrite 1 (encoded_pin g) (interruptEdgePolarity e)) ≠ 0 := by
      rw [configMode_configWrite]
      decide
    have hupd := freeCount_update s ch _ hspec.2.1 hv N hspec.1
    have hc : freeCount
        { s with
            config := fun j =>
              if j = ch then configWrite 1 (encoded_pin g) (interruptEdgePolarity e)
              else s.config j,
            inten := fun j => if j = ch then true else s.inten j } N =
        freeCount
        { s with
            config := fun j =>
              if j = ch then configWrite 1 (encoded_pin g) (interruptEdgePolarity e)
              else s.config j } N := by
      apply freeCount_congr
      intro j hj
      rfl
    rw [hc]
    omega

theorem enableSeq_freeCount (N : Nat) :
    ∀ l s, freeCount (enableSeq N l s) N ≤ freeCount s N - l.length := by
  intro l
  induction l with
  | nil =>
    intro s
    simp only [enableSeq, List.length_nil]
    omega
  | cons q l ih =>
    intro s
    simp only [enableSeq, List.length_cons]
    have h1 := ih (GPIOPin.enable_interrupts N q.1 q.2 s).1
    have h2 := enable_freeCount N q.1 q.2 s
    omega

/-! ### Claim theorems -/

/-- Claim C2: for every state of the channel table, `allocate_channel`
scans the channel slots in index order `0..N` and returns the
lowest-indexed slot whose MODE is Disabled (it takes no pin argument,
so it cannot and does not check whether the requesting pin already owns
a channel); it returns `NoChannelAvailable` (`none`) exactly when no
slot is Disabled. -/
theorem spec_c2 (N : Nat) (s : GpioteState) :
    (∀ i, GPIOPin.allocate_channel N s = some i ↔
      (i < N ∧ configMode (s.config i) = 0 ∧ ∀ j, j < i → configMode (s.config j) ≠ 0))
  ∧ (GPIOPin.allocate_channel N s = none ↔ ∀ i, i < N → configMode (s.config i) ≠ 0) :=
  ⟨fun i => allocate_channel_some_iff N s i, allocate_channel_none_iff N s⟩

theorem spec_c2_witness :
    GPIOPin.allocate_channel 4 exState = some 0 ∧ GPIOPin.allocate_channel 4 fullState = none :=
  ⟨((spec_c2 4 exState).1 0).mpr ⟨by decide, by decide, by decide⟩,
   (spec_c2 4 fullState).2.mpr (by decide)⟩

/-- Claim C10: for every `Pin` enum variant `p`, the constructor derives
`offset = p mod 32` and `port = p div 32`, so the encoded pin id
`GPIO_PER_PORT * port + pin` recomputed in `enable_interrupts` and
`find_channel` equals `p`'s numeric value exactly, and the derived
offset is always below 32. -/
theorem spec_c10 (p : Pin) :
    encoded_pin (GPIOPin.new p) = p.val ∧ (GPIOPin.new p).pin < GPIO_PER_PORT := by
  constructor
  · unfold encoded_pin GPIOPin.new GPIO_PER_PORT
    dsimp only
    omega
  · unfold GPIOPin.new GPIO_PER_PORT
    dsimp only
    omega

/-- Claim C8: when `enable_interrupts` fails to allocate (the channel
table has no Disabled slot), it writes no channel configuration and no
interrupt-enable bit — the whole GPIOTE state is returned unchanged —
and the failure surfaces as the `none` result, the branch on which the
code emits its "No available GPIOTE interrupt channels" debug report;
the pin thus stays without any interrupt configuration. -/
theorem spec_c8 (N : Nat) (g : GPIOPin) (e : InterruptEdge) (s : GpioteState)
    (hfull : GPIOPin.allocate_channel N s = none) :
    GPIOPin.enable_interrupts N g e s = (s, none) :=
  enable_interrupts_of_none N g e s hfull

theorem spec_c8_witness :
    GPIOPin.enable_interrupts 4 (GPIOPin.new 6) InterruptEdge.RisingEdge fullState =
      (fullState, none) :=
  spec_c8 4 (GPIOPin.new 6) InterruptEdge.RisingEdge fullState (by decide)

/-- Claim C7: `allocate_channel` is a pure query.  The source loop only
performs `matches_all` reads, so the state-passing form returns the
register state unchanged; consequently two consecutive allocate calls
with no intervening configuration write return the same index, and a
successful allocate does not by itself reserve the returned channel:
the returned slot's MODE is still Disabled in the unchanged state, and
the slot becomes occupied (MODE = Event) only once the caller
(`enable_interrupts`) writes its configuration. -/
theorem spec_c7 (N : Nat) (s : GpioteState) :
    (GPIOPin.allocate_channelST N s).2 = s
  ∧ (GPIOPin.allocate_channelST N (GPIOPin.allocate_channelST N s).2).1 =
      (GPIOPin.allocate_channelST N s).1
  ∧ (∀ i, GPIOPin.allocate_channel N s = some i → configMode (s.config i) = 0)
  ∧ (∀ g e ch, (GPIOPin.enable_interrupts N g e s).2 = some ch →
      configMode ((GPIOPin.enable_interrupts N g e s).1.config ch) = 1) := by
  refine ⟨rfl, rfl, ?_, ?_⟩
  · intro i h
    exact ((allocate_channel_some_iff N s i).mp h).2.1
  · intro g e ch h
    cases halloc : GPIOPin.allocate_channel N s with
    | none =>
      rw [enable_interrupts_of_none N g e s halloc] at h
      exact absurd h (by simp)
    | some ch2 =>
      rw [enable_interrupts_of_some N g e s ch2 halloc] at h ⊢
      dsimp only at h ⊢
      have hc : ch2 = ch := Option.some.inj h
      subst hc
      rw [if_pos rfl, configMode_configWrite]

theorem spec_c7_witness :
    (GPIOPin.allocate_channelST 4 exState).2 = exState
  ∧ configMode (exState.config 0) = 0
  ∧ configMode ((GPIOPin.enable_interrupts 4 (GPIOPin.new 7)
      InterruptEdge.RisingEdge exState).1.config 0) = 1 := by
  have h := spec_c7 4 exState
  exact ⟨h.1, h.2.2.1 0 (by decide),
    h.2.2.2 (GPIOPin.new 7) InterruptEdge.RisingEdge 0 (by decide)⟩

/-- Claim C6: for all sequences of N+1 consecutive allocations on
distinct pins with no intervening release (N the channel-pool size),
the (N+1)-th call reports `NoChannelAvailable`.  Allocation here is the
`enable_interrupts` path, which reserves the slot returned by
`allocate_channel` by writing its configuration (compare C7: the bare
`allocate_channel` query reserves nothing). -/
theorem spec_c6 (N : Nat) (s : GpioteState) (l : List (GPIOPin × InterruptEdge))
    (g : GPIOPin) (e : InterruptEdge) (hlen : l.length = N)
    (_hdistinct : ((g, e) :: l).Pairwise (fun a b => encoded_pin a.1 ≠ encoded_pin b.1)) :
    (GPIOPin.enable_interrupts N g e (enableSeq N l s)).2 = none := by
  have h1 := enableSeq_freeCount N l s
  have h2 := freeCount_le s N
  rw [hlen] at h1
  have h0 : freeCount (enableSeq N l s) N = 0 := by omega
  have halloc : GPIOPin.allocate_channel N (enableSeq N l s) = none := by
    rw [allocate_channel_none_iff]
    exact (freeCount_eq_zero_iff _ N).mp h0
  rw [enable_interrupts_of_none N g e _ halloc]

theorem spec_c6_witness :
    (GPIOPin.enable_interrupts 4 (GPIOPin.new 5) InterruptEdge.RisingEdge
      (enableSeq 4
        [(GPIOPin.new 1, InterruptEdge.RisingEdge), (GPIOPin.new 2, InterruptEdge.FallingEdge),
         (GPIOPin.new 3, InterruptEdge.EitherEdge), (GPIOPin.new 4, InterruptEdge.RisingEdge)]
        resetState)).2 = none :=
  spec_c6 4 resetState
    [(GPIOPin.new 1, InterruptEdge.RisingEdge), (GPIOPin.new 2, InterruptEdge.FallingEdge),
     (GPIOPin.new 3, InterruptEdge.EitherEdge), (GPIOPin.new 4, InterruptEdge.RisingEdge)]
    (GPIOPin.new 5) InterruptEdge.RisingEdge rfl (by decide)

/-- Claim C1: for every state of the channel table, `Port::handle_interrupt`
clears every pending flag it observed before returning, clears each fired
channel's flag before dispatching that channel's callback (the `clear`
action precedes the `fired` action of the same channel in the trace),
services channels in index-ascending order, services each channel at most
once per invocation (the serviced indices are strictly increasing), and
the serviced channels are exactly those whose flag was observed set. -/
theorem spec_c1 (N : Nat) (P : Port) (s : GpioteState) :
    (∀ i, i < N → s.event_in i = true → (Port.handle_interrupt N P s).1.event_in i = false)
  ∧ (∀ t1 i p t2, (Port.handle_interrupt N P s).2 = t1 ++ GpioteAction.fired i p :: t2 →
      GpioteAction.clear i ∈ t1)
  ∧ List.Pairwise (fun a b => a < b) (servicedChannels (Port.handle_interrupt N P s).2)
  ∧ (∀ i, i ∈ servicedChannels (Port.handle_interrupt N P s).2 ↔
      (i < N ∧ s.event_in i = true)) := by
  unfold Port.handle_interrupt
  rw [handleFrom_eq P N s 0]
  refine ⟨?_, ?_, ?_, ?_⟩
  · intro i hi _
    dsimp only
    rw [if_pos ⟨Nat.zero_le i, by omega⟩]
  · intro t1 i p t2 h
    exact clear_before_fired P s N 0 t1 i p t2 h
  · exact serviced_pairwise P s N 0
  · intro i
    rw [serviced_mem P s N 0 i]
    constructor
    · rintro ⟨_, h2, h3⟩
      exact ⟨by omega, h3⟩
    · rintro ⟨h1, h2⟩
      exact ⟨Nat.zero_le i, by omega, h2⟩

theorem spec_c1_witness :
    (Port.handle_interrupt 4 exPort exState).1.event_in 1 = false
  ∧ GpioteAction.clear 1 ∈ [GpioteAction.clear 1]
  ∧ List.Pairwise (fun a b => a < b) (servicedChannels (Port.handle_interrupt 4 exPort exState).2)
  ∧ 1 ∈ servicedChannels (Port.handle_interrupt 4 exPort exState).2 := by
  have h := spec_c1 4 exPort exState
  exact ⟨h.1 1 (by decide) (by decide),
    h.2.1 [GpioteAction.clear 1] 1 5 [] (by decide),
    h.2.2.1,
    (h.2.2.2 1).mpr (by decide)⟩

/-- Claim C9: for every pin with no registered callback whose owned
channel's pending flag is set, `handle_interrupt` does not crash (the
embedding is a total function): the pending flag is still cleared, and
no callback for that pin is invoked — the absence of a callback is
silently a no-op. -/
theorem spec_c9 (N : Nat) (P : Port) (s : GpioteState) (i p : Nat)
    (hi : i < N) (_hflag : s.event_in i = true)
    (hown : configPsel (s.config i) = p) (hnc : (P.pins p).client = false) :
    (Port.handle_interrupt N P s).1.event_in i = false
  ∧ ∀ q, GpioteAction.fired i q ∉ (Port.handle_interrupt N P s).2 := by
  unfold Port.handle_interrupt
  rw [handleFrom_eq P N s 0]
  constructor
  · dsimp only
    rw [if_pos ⟨Nat.zero_le i, by omega⟩]
  · intro q hq
    have hm := (fired_mem P s N 0 i q).mp hq
    rcases hm with ⟨_, _, _, _, h5⟩
    rw [hown, hnc] at h5
    exact absurd h5 (by simp)

theorem spec_c9_witness :
    (Port.handle_interrupt 4 noClientPort exState).1.event_in 1 = false
  ∧ ∀ q, GpioteAction.fired 1 q ∉ (Port.handle_interrupt 4 noClientPort exState).2 :=
  spec_c9 4 noClientPort exState 1 5 (by decide) (by decide) (by decide) (by decide)

/-- Claim C3 counterexample: in a state where channel 0's pending flag
is set but no pin owns the channel (its CONFIG register is zero, MODE
Disabled), `Port::handle_interrupt` does NOT leave the channel
"cleared-and-ignored": it decodes the PSEL field (0) and dispatches to
pin 0, whose registered callback fires — contradicting the claim that
no callback is invoked for a fired-but-unowned channel. -/
theorem spec_c3_counterexample :
    c3State.event_in 0 = true
  ∧ configMode (c3State.config 0) = 0
  ∧ GpioteAction.fired 0 0 ∈ (Port.handle_interrupt 4 c3Port c3State).2 := by
  decide

/-- Claim C3, amended: the interrupt router never fails (the embedding
is total, and PSEL of a zeroed CONFIG decodes to 0, a valid pin index):
a fired-but-unowned channel (CONFIG = 0) has its flag cleared, but it
is not ignored — pin 0's callback is invoked exactly when pin 0 has a
registered client, and no other pin's callback is invoked for that
channel. -/
theorem spec_c3 (N : Nat) (P : Port) (s : GpioteState) (i : Nat)
    (hi : i < N) (hflag : s.event_in i = true) (hez : s.config i = 0) :
    (Port.handle_interrupt N P s).1.event_in i = false
  ∧ (GpioteAction.fired i 0 ∈ (Port.handle_interrupt N P s).2 ↔ (P.pins 0).client = true)
  ∧ ∀ q, q ≠ 0 → GpioteAction.fired i q ∉ (Port.handle_interrupt N P s).2 := by
  have hpsel : configPsel (s.config i) = 0 := by
    rw [hez]
    decide
  unfold Port.handle_interrupt
  rw [handleFrom_eq P N s 0]
  refine ⟨?_, ?_, ?_⟩
  · dsimp only
    rw [if_pos ⟨Nat.zero_le i, by omega⟩]
  · constructor
    · intro h
      have hm := (fired_mem P s N 0 i 0).mp h
      rw [hpsel] at hm
      exact hm.2.2.2.2
    · intro hcl
      exact (fired_mem P s N 0 i 0).mpr
        ⟨Nat.zero_le i, by omega, hflag, hpsel.symm, by rw [hpsel]; exact hcl⟩
  · intro q hq hmem
    have hm := (fired_mem P s N 0 i q).mp hmem
    rw [hpsel] at hm
    exact hq hm.2.2.2.1

theorem spec_c3_witness :
    (Port.handle_interrupt 4 c3Port c3State).1.event_in 0 = false
  ∧ (GpioteAction.fired 0 0 ∈ (Port.handle_interrupt 4 c3Port c3State).2 ↔
      (c3Port.pins 0).client = true)
  ∧ ∀ q, q ≠ 0 → GpioteAction.fired 0 q ∉ (Port.handle_interrupt 4 c3Port c3State).2 :=
  spec_c3 4 c3Port c3State 0 (by decide) (by decide) (by decide)

/-- Claim C4 counterexample: enabling interrupts twice for the same pin
(`P0_01`, encoded id 1) from the reset state, with no intervening
disable, leaves two distinct active channels (0 and 1) carrying the
same owner — the claimed invariant is not preserved by every sequence
of `enable_interrupts`/`disable_interrupts` calls. -/
theorem spec_c4_counterexample :
    ChannelInv 4 resetState
  ∧ configMode (c4DoubleEnable.config 0) ≠ 0
  ∧ configMode (c4DoubleEnable.config 1) ≠ 0
  ∧ configPsel (c4DoubleEnable.config 0) = configPsel (c4DoubleEnable.config 1)
  ∧ ¬ ChannelInv 4 c4DoubleEnable := by
  decide

/-- Claim C4, amended: no two distinct active channels share an owner —
this invariant holds in the reset state, is preserved by every
`disable_interrupts` call, and is preserved by an `enable_interrupts`
call provided no active channel already carries the caller's encoded
pin id (in particular, it is preserved by every sequence of enable and
disable calls in which a pin is never enabled while it still owns a
channel; enabling the same pin twice without an intervening disable
violates it, see the counterexample). -/
theorem spec_c4 (N : Nat) :
    ChannelInv N resetState
  ∧ (∀ g e s, ChannelInv N s →
      (∀ j, j < N → configMode (s.config j) ≠ 0 →
        configPsel (s.config j) ≠ encoded_pin g % 64) →
      ChannelInv N (GPIOPin.enable_interrupts N g e s).1)
  ∧ (∀ g s, ChannelInv N s → ChannelInv N (GPIOPin.disable_interrupts N g s)) := by
  refine ⟨?_, ?_, ?_⟩
  · rintro i _ j _ ⟨_, hmi, _⟩
    exact absurd rfl hmi
  · intro g e s hinv hfresh
    cases halloc : GPIOPin.allocate_channel N s with
    | none =>
      rw [enable_interrupts_of_none N g e s halloc]
      exact hinv
    | some ch =>
      rw [enable_interrupts_of_some N g e s ch halloc]
      rintro i hi j hj ⟨hij, hmi, hmj⟩
      dsimp only at hmi hmj ⊢
      by_cases hic : i = ch
      · subst hic
        rw [if_pos rfl, if_neg (fun h => hij h.symm), configPsel_configWrite]
        have hmj2 : configMode (s.config j) ≠ 0 := by
          rwa [if_neg (fun h => hij h.symm)] at hmj
        exact fun h => (hfresh j hj hmj2) h.symm
      · by_cases hjc : j = ch
        · subst hjc
          rw [if_neg hic, if_pos rfl, configPsel_configWrite]
          have hmi2 : configMode (s.config i) ≠ 0 := by
            rwa [if_neg hic] at hmi
          exact fun h => (hfresh i hi hmi2) h
        · rw [if_neg hic, if_neg hjc]
          have hmi2 : configMode (s.config i) ≠ 0 := by
            rwa [if_neg hic] at hmi
          have hmj2 : configMode (s.config j) ≠ 0 := by
            rwa [if_neg hjc] at hmj
          exact hinv i hi j hj ⟨hij, hmi2, hmj2⟩
  · intro g s hinv
    cases hfind : GPIOPin.find_channel N g g.pin s with
    | none =>
      rw [disable_interrupts_of_none N g s hfind]
      exact hinv
    | some ch =>
      rw [disable_interrupts_of_some N g s ch hfind]
      rintro i hi j hj ⟨hij, hmi, hmj⟩
      dsimp only at hmi hmj ⊢
      by_cases hic : i = ch
      · subst hic
        rw [if_pos rfl] at hmi
        exact absurd rfl hmi
      · by_cases hjc : j = ch
        · subst hjc
          rw [if_pos rfl] at hmj
          exact absurd rfl hmj
        · rw [if_neg hic, if_neg hjc]
          rw [if_neg hic] at hmi
          rw [if_neg hjc] at hmj
          exact hinv i hi j hj ⟨hij, hmi, hmj⟩

theorem spec_c4_witness :
    ChannelInv 4 resetState
  ∧ ChannelInv 4 (GPIOPin.enable_interrupts 4 (GPIOPin.new 1)
      InterruptEdge.RisingEdge resetState).1
  ∧ ChannelInv 4 (GPIOPin.disable_interrupts 4 (GPIOPin.new 1) resetState) :=
  ⟨(spec_c4 4).1,
   (spec_c4 4).2.1 (GPIOPin.new 1) InterruptEdge.RisingEdge resetState (by decide) (by decide),
   (spec_c4 4).2.2 (GPIOPin.new 1) resetState (by decide)⟩

/-- Claim C5 counterexample: pin `P0_00` has encoded id 0, and
`find_channel` matches on the PSEL field alone, which is 0 for every
released (zeroed) CONFIG register.  With pin `P0_00` owning channel 0,
`disable_interrupts` does clear the channel, but a subsequent find for
that pin's encoded id returns channel 0 (`some 0`), not NotFound —
contradicting the claim. -/
theorem spec_c5_counterexample :
    configMode (c5State.config 0) ≠ 0
  ∧ configPsel (c5State.config 0) = encoded_pin (GPIOPin.new 0)
  ∧ GPIOPin.find_channel 4 (GPIOPin.new 0) (GPIOPin.new 0).pin
      (GPIOPin.disable_interrupts 4 (GPIOPin.new 0) c5State) = some 0 := by
  decide

/-- Claim C5, amended: for every pin whose encoded id is nonzero and
below 64, if the pin owns channel `i` and no other channel's PSEL field
equals the pin's encoded id, then `disable_interrupts` sets channel
`i`'s MODE to Disabled and clears its PSEL owner, POLARITY and
interrupt-enable bit, and a subsequent `find_channel` for that pin
returns NotFound (`none`).  (For encoded id 0 — pin `P0_00` — the claim
fails: released channels also carry PSEL 0, so find still succeeds; see
the counterexample.) -/
theorem spec_c5 (N : Nat) (g : GPIOPin) (s : GpioteState) (i : Nat)
    (he : encoded_pin g < 64) (hez : encoded_pin g ≠ 0) (hi : i < N)
    (_hmode : configMode (s.config i) ≠ 0)
    (hown : configPsel (s.config i) = encoded_pin g)
    (huniq : ∀ j, j < N → j ≠ i → configPsel (s.config j) ≠ encoded_pin g) :
    configMode ((GPIOPin.disable_interrupts N g s).config i) = 0
  ∧ configPsel ((GPIOPin.disable_interrupts N g s).config i) = 0
  ∧ configPolarity ((GPIOPin.disable_interrupts N g s).config i) = 0
  ∧ (GPIOPin.disable_interrupts N g s).inten i = false
  ∧ GPIOPin.find_channel N g g.pin (GPIOPin.disable_interrupts N g s) = none := by
  have hmask : (GPIO_PER_PORT * g.port + g.pin) % 64 = encoded_pin g := by
    unfold encoded_pin at he ⊢
    exact Nat.mod_eq_of_lt he
  have hfind : GPIOPin.find_channel N g g.pin s = some i := by
    rw [find_channel_some_iff, hmask]
    exact ⟨hi, hown, fun j hj => huniq j (by omega) (by omega)⟩
  rw [disable_interrupts_of_some N g s i hfind]
  refine ⟨?_, ?_, ?_, ?_, ?_⟩
  · dsimp only
    rw [if_pos rfl]
    decide
  · dsimp only
    rw [if_pos rfl]
    decide
  · dsimp only
    rw [if_pos rfl]
    decide
  · dsimp only
    rw [if_pos rfl]
  · rw [find_channel_none_iff]
    intro j hj
    dsimp only
    rw [hmask]
    by_cases hji : j = i
    · subst hji
      rw [if_pos rfl]
      exact fun h => hez h.symm
    · rw [if_neg hji]
      exact huniq j hj hji

theorem spec_c5_witness :
    configMode ((GPIOPin.disable_interrupts 4 (GPIOPin.new 33) c5wState).config 2) = 0
  ∧ configPsel ((GPIOPin.disable_interrupts 4 (GPIOPin.new 33) c5wState).config 2) = 0
  ∧ configPolarity ((GPIOPin.disable_interrupts 4 (GPIOPin.new 33) c5wState).config 2) = 0
  ∧ (GPIOPin.disable_interrupts 4 (GPIOPin.new 33) c5wState).inten 2 = false
  ∧ GPIOPin.find_channel 4 (GPIOPin.new 33) (GPIOPin.new 33).pin
      (GPIOPin.disable_interrupts 4 (GPIOPin.new 33) c5wState) = none :=
  spec_c5 4 (GPIOPin.new 33) c5wState 2 (by decide) (by decide) (by decide) (by decide)
    (by decide) (by decide)
